import Mathlib

/-!
Verification of the trumpet-helper note-practice engine
(`src/trumpet-helper/src/App.jsx`, `src/trumpet-helper/src/utils/noteMapping.js`,
`PracticeArea` component) against its natural-language specification.

The engine is embedded shallowly: React component state becomes an explicit
`SessionState` record, the two `setTimeout` callbacks of `handleKeyPress`
become explicit pending actions (`PendingCheck` for the 100 ms debounce check,
`PendingAdvance` for the 1500 ms advance) that fire as separate events, and
the `useEffect` keyed on `currentNoteIndex` (which clears `pressedButtons`,
`feedback` and `isCorrect` whenever the index value changes) is folded into
every transition that changes the index.
-/

namespace TrumpetHelper

/-- A note as parsed from the score by the sheet-music display
(`note.name` is the pitch name, e.g. `"F#4"`). -/
structure ParsedNote where
  name : String
deriving Repr, DecidableEq

/-- A note annotated with its required valve combination
(`applyValveCombinations` adds `valveCombination` to each parsed note). -/
structure AnnotatedNote where
  name : String
  valveCombination : List Nat
deriving Repr, DecidableEq

/-- The static fingering dictionary `valveMap` of
`noteMapping.js`, as an association list (JS object lookup). -/
def valveMap : List (String × List Nat) :=
  [("C4", []), ("C#4", [1]), ("D4", [1]), ("D#4", [2]), ("E4", [2]), ("F4", [1, 2]),
   ("F#4", [3]), ("G4", [3]), ("G#4", [1, 3]), ("A4", [1, 3]), ("A#4", [2, 3]), ("B4", [2, 3]),
   ("C5", [1, 2, 3]), ("C#5", [1, 2, 3]), ("D5", [1, 2, 3]), ("D#5", [1, 2, 3]), ("E5", [1, 2, 3])]

/-- `noteToValveCombination` of `noteMapping.js`: dictionary lookup with
`|| []` fallback for names not in the map. -/
def noteToValveCombination (noteName : String) : List Nat :=
  ((valveMap.find? (fun p => p.1 == noteName)).map Prod.snd).getD []

/-- `isCorrectCombination` of `noteMapping.js`:
`expected.length === pressed.size && expected.every(v => pressed.has(v))
&& Array.from(pressed).every(b => expected.includes(b))`. -/
def isCorrectCombination (expectedCombination : List Nat) (pressedButtons : Finset Nat) : Prop :=
  expectedCombination.length = pressedButtons.card ∧
  (∀ v ∈ expectedCombination, v ∈ pressedButtons) ∧
  (∀ b ∈ pressedButtons, b ∈ expectedCombination)

instance (e : List Nat) (p : Finset Nat) : Decidable (isCorrectCombination e p) := by
  unfold isCorrectCombination; infer_instance

/-- `applyValveCombinations` of `noteMapping.js`: annotate each parsed note. -/
def applyValveCombinations (notes : List ParsedNote) : List AnnotatedNote :=
  notes.map (fun note => ⟨note.name, noteToValveCombination note.name⟩)

/-- JS `toLowerCase()` as applied to key strings (`event.key.toLowerCase()`
and the mapping editor's `key.toLowerCase()`), on the character list. -/
def toLowerKey (s : String) : String := ⟨s.data.map Char.toLower⟩

/-- The user-configurable `buttonMappings` object of `App.jsx`:
one physical key per valve id 1, 2, 3. -/
structure ButtonMappings where
  m1 : String
  m2 : String
  m3 : String
deriving Repr, DecidableEq

/-- The initial mapping `\x7b 1: 'a', 2: 's', 3: 'd' \x7d`. -/
def defaultMappings : ButtonMappings := ⟨"a", "s", "d"⟩

/-- The key mapped to a valve id (`buttonMappings[v]`); `none` for ids
other than 1, 2, 3. -/
def valveKey (bm : ButtonMappings) (v : Nat) : Option String :=
  if v = 1 then some bm.m1
  else if v = 2 then some bm.m2
  else if v = 3 then some bm.m3
  else none

/-- The key-classification loop of `handleKeyPress` (`App.jsx` lines 33-39):
`Object.entries(buttonMappings)` enumerates the integer-like keys 1, 2, 3 in
ascending order, and the loop `break`s at the first entry whose mapped key
equals the pressed key, so the loop is the nested conditional below. -/
def classifyKey (bm : ButtonMappings) (key : String) : Option Nat :=
  if bm.m1 = key then some 1
  else if bm.m2 = key then some 2
  else if bm.m3 = key then some 3
  else none

/-- `handleMappingChange` of `App.jsx`: replace one entry, lowercasing the key. -/
def handleMappingChange (buttonNumber : Nat) (key : String) (bm : ButtonMappings) :
    ButtonMappings :=
  if buttonNumber = 1 then { bm with m1 := toLowerKey key }
  else if buttonNumber = 2 then { bm with m2 := toLowerKey key }
  else if buttonNumber = 3 then { bm with m3 := toLowerKey key }
  else bm

/-- The React component state of `App.jsx` owned by the practice engine. -/
structure SessionState where
  notes : List AnnotatedNote
  currentNoteIndex : Nat
  buttonMappings : ButtonMappings
  feedback : String
  isCorrect : Option Bool
  pressedButtons : Finset Nat
deriving DecidableEq

/-- `const currentNote = notes[currentNoteIndex] || null`. -/
def currentNote (st : SessionState) : Option AnnotatedNote :=
  st.notes.get? st.currentNoteIndex

/-- The 100 ms `setTimeout` callback scheduled by `handleKeyPress`
(`App.jsx` lines 50-78). The closure captures `currentNote`,
`currentNoteIndex` and `notes.length` from the render in which the key event
was handled; `pressedButtons` is NOT captured — the callback reads it at fire
time through the functional updater `setPressedButtons(currentPressed => ...)`. -/
structure PendingCheck where
  capturedNote : AnnotatedNote
  capturedIndex : Nat
  capturedLen : Nat
deriving Repr, DecidableEq

/-- The 1500 ms `setTimeout` callback scheduled when the debounce check
matched (`App.jsx` lines 60-69). The advance condition uses the captured
`currentNoteIndex` and `notes.length`; the increment itself is the
functional update `setCurrentNoteIndex(prev => prev + 1)`. -/
structure PendingAdvance where
  capturedIndex : Nat
  capturedLen : Nat
deriving Repr, DecidableEq

/-- `Array.from(currentPressed).sort()` interpolated into a template string. -/
def combinationString (pressed : Finset Nat) : String :=
  String.intercalate "," ((pressed.sort (· ≤ ·)).map toString)

def correctFeedback (pressed : Finset Nat) (name : String) : String :=
  "Correct! Combination " ++ combinationString pressed ++ " is right for " ++ name ++ "."

def incorrectFeedback (pressed : Finset Nat) (name : String) : String :=
  "Incorrect! Combination " ++ combinationString pressed ++ " is not right for " ++ name ++ "."

def completionFeedback : String := "Congratulations! You completed the exercise."

/-- Firing the 1500 ms advance callback (`App.jsx` lines 60-69). When the
index changes, the `useEffect` keyed on `currentNoteIndex` (lines 85-89)
additionally clears `pressedButtons` (the callback itself already clears
`feedback` and `isCorrect`). In the completed branch the index does not
change, so the effect does not run and `pressedButtons` is untouched. -/
def fireAdvance (pa : PendingAdvance) (st : SessionState) : SessionState :=
  if pa.capturedIndex < pa.capturedLen - 1 then
    { st with currentNoteIndex := st.currentNoteIndex + 1
              feedback := ""
              isCorrect := none
              pressedButtons := ∅ }
  else
    { st with feedback := completionFeedback
              isCorrect := some true }

/-- Firing the 100 ms debounce callback (`App.jsx` lines 50-78): evaluate the
captured note's combination against the pressed set current at fire time;
on a match set correct feedback and schedule the advance, else if enough
buttons are held set incorrect feedback, else change nothing. -/
def fireCheck (pc : PendingCheck) (st : SessionState) :
    SessionState × Option PendingAdvance :=
  let currentPressed := st.pressedButtons
  let expectedCombination := pc.capturedNote.valveCombination
  if isCorrectCombination expectedCombination currentPressed then
    ({ st with feedback := correctFeedback currentPressed pc.capturedNote.name
               isCorrect := some true },
     some ⟨pc.capturedIndex, pc.capturedLen⟩)
  else if expectedCombination.length ≤ currentPressed.card then
    ({ st with feedback := incorrectFeedback currentPressed pc.capturedNote.name
               isCorrect := some false },
     none)
  else
    (st, none)

/-- The synchronous part of `handleKeyPress` (`App.jsx` lines 27-79): bail
out when there is no current note, lowercase the event key, classify it
against the mapping; for a mapped key add the valve id to `pressedButtons`
(Set.add — idempotent) and schedule the debounce check, otherwise do nothing. -/
def handleKeyPress (rawKey : String) (st : SessionState) :
    SessionState × Option PendingCheck :=
  match currentNote st with
  | none => (st, none)
  | some note =>
    match classifyKey st.buttonMappings (toLowerKey rawKey) with
    | none => (st, none)
    | some pressedButton =>
      ({ st with pressedButtons := insert pressedButton st.pressedButtons },
       some ⟨note, st.currentNoteIndex, st.notes.length⟩)

/-- `nextNote` of `App.jsx` (lines 127-133), with the `useEffect` on
`currentNoteIndex` folded in (the index changes, so `pressedButtons` is
cleared too). -/
def nextNote (st : SessionState) : SessionState :=
  if st.currentNoteIndex < st.notes.length - 1 then
    { st with currentNoteIndex := st.currentNoteIndex + 1
              feedback := ""
              isCorrect := none
              pressedButtons := ∅ }
  else st

/-- `prevNote` of `App.jsx` (lines 136-142), with the `useEffect` folded in. -/
def prevNote (st : SessionState) : SessionState :=
  if 0 < st.currentNoteIndex then
    { st with currentNoteIndex := st.currentNoteIndex - 1
              feedback := ""
              isCorrect := none
              pressedButtons := ∅ }
  else st

/-- `handleNotesParsed` of `App.jsx` (lines 104-108): annotate and store the
parsed notes and set `currentNoteIndex` to 0. The `useEffect` keyed on
`currentNoteIndex` runs only when the index value actually changes, so
`pressedButtons`, `feedback` and `isCorrect` are cleared only when the
previous index was nonzero. -/
def handleNotesParsed (parsedNotes : List ParsedNote) (st : SessionState) : SessionState :=
  let st' := { st with notes := applyValveCombinations parsedNotes, currentNoteIndex := 0 }
  if st.currentNoteIndex ≠ 0 then
    { st' with pressedButtons := ∅, feedback := "", isCorrect := none }
  else st'

/-- `handleFileUpload` of `App.jsx` (lines 93-101): reset the index and set
upload feedback; when the index actually changes, the `useEffect` then
overwrites feedback and clears `pressedButtons`. -/
def handleFileUpload (st : SessionState) : SessionState :=
  if st.currentNoteIndex ≠ 0 then
    { st with currentNoteIndex := 0, pressedButtons := ∅, feedback := "", isCorrect := none }
  else
    { st with feedback := "File uploaded successfully! Start practicing.", isCorrect := none }

/-- `canGoPrev` as exposed by `PracticeArea`: with no current note the
component renders no navigation at all; otherwise the Previous button is
disabled exactly when `currentNoteIndex === 0`. -/
def canGoPrev (st : SessionState) : Bool :=
  (currentNote st).isSome && (st.currentNoteIndex != 0)

/-- `canGoNext` as exposed by `PracticeArea`: with no current note the
component renders no navigation at all; otherwise the Next button is
disabled exactly when `currentNoteIndex === notes.length - 1`. -/
def canGoNext (st : SessionState) : Bool :=
  (currentNote st).isSome && (st.currentNoteIndex != st.notes.length - 1)

/-- The engine's event alphabet. `App.jsx` registers only a `keydown`
listener (lines 119-124) — there is no key-up event. `check` and `advance`
are the firings of the two scheduled timeouts. -/
inductive Event where
  | keyDown (key : String)
  | next
  | prev
  | parsed (notes : List ParsedNote)
  | upload
  | remap (buttonNumber : Nat) (key : String)
  | check (pc : PendingCheck)
  | advance (pa : PendingAdvance)
deriving Repr, DecidableEq

/-- One transition of the engine (the state part; scheduled actions appear
as their own `check` / `advance` events when they fire). -/
def step (e : Event) (st : SessionState) : SessionState :=
  match e with
  | .keyDown key => (handleKeyPress key st).1
  | .next => nextNote st
  | .prev => prevNote st
  | .parsed notes => handleNotesParsed notes st
  | .upload => handleFileUpload st
  | .remap n k => { st with buttonMappings := handleMappingChange n k st.buttonMappings }
  | .check pc => (fireCheck pc st).1
  | .advance pa => fireAdvance pa st

/-- Concrete states and notes used by closed witness/counterexample theorems. -/
def noteF4 : AnnotatedNote := ⟨"F4", [1, 2]⟩

def noteDs4 : AnnotatedNote := ⟨"D#4", [2]⟩

def noteCs4 : AnnotatedNote := ⟨"C#4", [1]⟩

def noteC4 : AnnotatedNote := ⟨"C4", []⟩

/-- Fresh state right after loading a two-note score, first note `C#4`. -/
def exampleState : SessionState :=
  ⟨[noteCs4, noteDs4], 0, defaultMappings, "", none, ∅⟩

/-- Fresh state on the single note `D#4`. -/
def exampleLastState : SessionState :=
  ⟨[noteDs4], 0, defaultMappings, "", none, ∅⟩

/-- State whose current note is the open-valve note `C4` with no keys held. -/
def openNoteState : SessionState :=
  ⟨[noteC4, noteCs4], 0, defaultMappings, "", none, ∅⟩

/-- Empty initial state (`App.jsx` initial `useState` values). -/
def initialState : SessionState :=
  ⟨[], 0, defaultMappings, "", none, ∅⟩

/-- The state after this trace from `exampleState` (current note `C#4`,
requires valve 1): key-down `"a"` completes the match; its debounce check
confirms it (correct, advance `⟨0, 2⟩` scheduled for 1500 ms later);
key-down `"s"` then grows the pressed set to `\x7b1, 2\x7d`; that key-down's
own debounce check marks the attempt incorrect. The advance scheduled in
step two is still pending on this state. -/
def supersededState : SessionState :=
  step (.check ⟨noteCs4, 0, 2⟩)
    (step (.keyDown "s")
      (step (.check ⟨noteCs4, 0, 2⟩)
        (step (.keyDown "a") exampleState)))

/-- Mid-session state at index 1 with a held button and stale feedback. -/
def idx1State : SessionState :=
  ⟨[noteCs4, noteDs4], 1, defaultMappings, "some feedback", some false, {2}⟩

/-! ## Helper lemmas -/

lemma noteToValveCombination_cases (name : String) :
    noteToValveCombination name = [] ∨
      ∃ p ∈ valveMap, noteToValveCombination name = p.2 := by
  unfold noteToValveCombination
  cases hfind : valveMap.find? (fun p => p.1 == name) with
  | none => exact Or.inl rfl
  | some p => exact Or.inr ⟨p, List.mem_of_find?_eq_some hfind, rfl⟩

lemma valveMap_entries_ok :
    ∀ p ∈ valveMap, p.2.Nodup ∧ ∀ v ∈ p.2, v ∈ ({1, 2, 3} : Finset Nat) := by
  decide

lemma handleKeyPress_mapped (key : String) (st : SessionState) (note : AnnotatedNote)
    (b : Nat) (hcur : currentNote st = some note)
    (hclass : classifyKey st.buttonMappings (toLowerKey key) = some b) :
    handleKeyPress key st =
      ({ st with pressedButtons := insert b st.pressedButtons },
       some ⟨note, st.currentNoteIndex, st.notes.length⟩) := by
  simp only [handleKeyPress, hcur, hclass]

lemma fireCheck_correct (pc : PendingCheck) (st : SessionState)
    (h : isCorrectCombination pc.capturedNote.valveCombination st.pressedButtons) :
    fireCheck pc st =
      ({ st with feedback := correctFeedback st.pressedButtons pc.capturedNote.name,
                 isCorrect := some true },
       some ⟨pc.capturedIndex, pc.capturedLen⟩) := by
  simp only [fireCheck]
  rw [if_pos h]

lemma fireCheck_incorrect (pc : PendingCheck) (st : SessionState)
    (h1 : ¬ isCorrectCombination pc.capturedNote.valveCombination st.pressedButtons)
    (h2 : pc.capturedNote.valveCombination.length ≤ st.pressedButtons.card) :
    fireCheck pc st =
      ({ st with feedback := incorrectFeedback st.pressedButtons pc.capturedNote.name,
                 isCorrect := some false },
       none) := by
  simp only [fireCheck]
  rw [if_neg h1, if_pos h2]

lemma fireCheck_fields (pc : PendingCheck) (st : SessionState) :
    (fireCheck pc st).1.currentNoteIndex = st.currentNoteIndex ∧
      (fireCheck pc st).1.pressedButtons = st.pressedButtons := by
  simp only [fireCheck]
  split_ifs <;> exact ⟨rfl, rfl⟩

lemma fireAdvance_mid (pa : PendingAdvance) (st : SessionState)
    (h : pa.capturedIndex < pa.capturedLen - 1) :
    fireAdvance pa st =
      { st with currentNoteIndex := st.currentNoteIndex + 1,
                feedback := "", isCorrect := none, pressedButtons := ∅ } := by
  unfold fireAdvance
  rw [if_pos h]

lemma fireAdvance_last (pa : PendingAdvance) (st : SessionState)
    (h : ¬ pa.capturedIndex < pa.capturedLen - 1) :
    fireAdvance pa st =
      { st with feedback := completionFeedback, isCorrect := some true } := by
  unfold fireAdvance
  rw [if_neg h]

lemma handleKeyPress_fst (key : String) (st : SessionState) :
    (handleKeyPress key st).1 = st ∨
      ∃ b, (handleKeyPress key st).1 =
        { st with pressedButtons := insert b st.pressedButtons } := by
  unfold handleKeyPress
  rcases currentNote st with _ | note
  · exact Or.inl rfl
  · rcases classifyKey st.buttonMappings (toLowerKey key) with _ | b
    · exact Or.inl rfl
    · exact Or.inr ⟨b, rfl⟩

/-! ## Claims -/

/-- C6: `isCorrectCombination` (the matcher `isMatch`) holds iff the required
list and the pressed set have identical membership — exact set equality, so
element order is irrelevant, and partial overlaps and supersets fail. -/
theorem isCorrectCombination_iff_set_eq :
    ∀ (R : List Nat) (P : Finset Nat), R.Nodup →
      (isCorrectCombination R P ↔ R.toFinset = P) := by
  intro R P hR
  constructor
  · rintro ⟨hlen, hRP, hPR⟩
    ext a
    simp only [List.mem_toFinset]
    exact ⟨fun h => hRP a h, fun h => hPR a h⟩
  · rintro rfl
    refine ⟨(List.toFinset_card_of_nodup hR).symm, ?_, ?_⟩
    · intro v hv; simpa using hv
    · intro b hb; simpa using hb

/-- C6 witness: the spec's example `isMatch(\x7b1,2\x7d, \x7b2,1\x7d)` via the
theorem at `R = [1,2]`, `P = \x7b2,1\x7d`. -/
theorem isCorrectCombination_iff_set_eq_witness :
    ([1, 2] : List Nat).Nodup ∧
      (isCorrectCombination [1, 2] ({2, 1} : Finset Nat) ↔
        ([1, 2] : List Nat).toFinset = ({2, 1} : Finset Nat)) :=
  ⟨by decide, isCorrectCombination_iff_set_eq [1, 2] {2, 1} (by decide)⟩

/-- C9: the fingering table is a deterministic total function: names not in
the table fall back to the empty combination, and every result is a
duplicate-free subset of the three valve ids. -/
theorem noteToValveCombination_spec :
    ∀ name : String,
      (name ∉ valveMap.map Prod.fst → noteToValveCombination name = []) ∧
      (noteToValveCombination name).Nodup ∧
      (∀ v ∈ noteToValveCombination name, v ∈ ({1, 2, 3} : Finset Nat)) := by
  intro name
  refine ⟨?_, ?_⟩
  · intro hname
    unfold noteToValveCombination
    have hnone : valveMap.find? (fun p => p.1 == name) = none := by
      rw [List.find?_eq_none]
      intro p hp hbeq
      exact hname ((beq_iff_eq.mp hbeq) ▸ List.mem_map_of_mem Prod.fst hp)
    rw [hnone]; rfl
  · rcases noteToValveCombination_cases name with h | ⟨p, hp, h⟩
    · rw [h]; exact ⟨List.nodup_nil, by intro v hv; cases hv⟩
    · rw [h]; exact valveMap_entries_ok p hp

/-- C9 witness: the unknown pitch name `"Z9"` yields the empty combination. -/
theorem noteToValveCombination_spec_witness :
    "Z9" ∉ valveMap.map Prod.fst ∧ noteToValveCombination "Z9" = [] :=
  ⟨by decide, (noteToValveCombination_spec "Z9").1 (by decide)⟩

/-- C7: key classification is deterministic and resolves duplicate key
assignments by valve-id order, lowest first: `classifyKey` returns `v`
exactly when valve `v` is mapped to the key and no smaller valve id is. -/
theorem classifyKey_lowest_valve :
    ∀ (bm : ButtonMappings) (key : String) (v : Nat),
      classifyKey bm key = some v ↔
        (valveKey bm v = some key ∧ ∀ w, w < v → valveKey bm w ≠ some key) := by
  intro bm key v
  have hvk : ∀ w, valveKey bm w = some key ↔
      (w = 1 ∧ bm.m1 = key) ∨ (w = 2 ∧ bm.m2 = key) ∨ (w = 3 ∧ bm.m3 = key) := by
    intro w
    unfold valveKey
    split_ifs with h1 h2 h3 <;> simp_all
  constructor
  · intro h
    unfold classifyKey at h
    split_ifs at h with h1 h2 h3
    · obtain rfl : v = 1 := by injection h with h; omega
      refine ⟨(hvk 1).mpr (Or.inl ⟨rfl, h1⟩), ?_⟩
      intro w hw hchk
      rcases (hvk w).mp hchk with ⟨rfl, _⟩ | ⟨rfl, _⟩ | ⟨rfl, _⟩ <;> omega
    · obtain rfl : v = 2 := by injection h with h; omega
      refine ⟨(hvk 2).mpr (Or.inr (Or.inl ⟨rfl, h2⟩)), ?_⟩
      intro w hw hchk
      rcases (hvk w).mp hchk with ⟨rfl, hk⟩ | ⟨rfl, _⟩ | ⟨rfl, _⟩
      · exact h1 hk
      · omega
      · omega
    · obtain rfl : v = 3 := by injection h with h; omega
      refine ⟨(hvk 3).mpr (Or.inr (Or.inr ⟨rfl, h3⟩)), ?_⟩
      intro w hw hchk
      rcases (hvk w).mp hchk with ⟨rfl, hk⟩ | ⟨rfl, hk⟩ | ⟨rfl, _⟩
      · exact h1 hk
      · exact h2 hk
      · omega
  · rintro ⟨hv, hmin⟩
    rcases (hvk v).mp hv with ⟨rfl, hk⟩ | ⟨rfl, hk⟩ | ⟨rfl, hk⟩
    · unfold classifyKey; rw [if_pos hk]
    · have h1 : bm.m1 ≠ key := fun h =>
        hmin 1 (by omega) ((hvk 1).mpr (Or.inl ⟨rfl, h⟩))
      unfold classifyKey; rw [if_neg h1, if_pos hk]
    · have h1 : bm.m1 ≠ key := fun h =>
        hmin 1 (by omega) ((hvk 1).mpr (Or.inl ⟨rfl, h⟩))
      have h2 : bm.m2 ≠ key := fun h =>
        hmin 2 (by omega) ((hvk 2).mpr (Or.inr (Or.inl ⟨rfl, h⟩)))
      unfold classifyKey; rw [if_neg h1, if_neg h2, if_pos hk]

/-- C7 witness: with valves 1 and 2 both mapped to `"a"`, a key-down of
`"a"` classifies to valve 1, the lowest colliding id. -/
theorem classifyKey_lowest_valve_witness :
    valveKey ⟨"a", "a", "d"⟩ 2 = some "a" ∧
      classifyKey ⟨"a", "a", "d"⟩ "a" = some 1 :=
  ⟨by decide,
   (classifyKey_lowest_valve ⟨"a", "a", "d"⟩ "a" 1).mpr
     ⟨by decide, by intro w hw; obtain rfl : w = 0 := Nat.lt_one_iff.mp hw; decide⟩⟩

/-- C8: unmapped key-down events and out-of-range navigation are defined
no-ops: a key no valve id is mapped to leaves the state unchanged and
schedules nothing, `nextNote` at the last index is the identity, and
`prevNote` at index 0 is the identity. -/
theorem noop_transitions :
    ∀ (st : SessionState) (key : String),
      (classifyKey st.buttonMappings (toLowerKey key) = none →
        handleKeyPress key st = (st, none)) ∧
      (st.currentNoteIndex = st.notes.length - 1 → nextNote st = st) ∧
      (st.currentNoteIndex = 0 → prevNote st = st) := by
  intro st key
  refine ⟨?_, ?_, ?_⟩
  · intro h
    unfold handleKeyPress
    cases currentNote st with
    | none => rfl
    | some note => simp [h]
  · intro h
    unfold nextNote
    rw [if_neg (by omega)]
  · intro h
    unfold prevNote
    rw [if_neg (by omega)]

/-- C8 witness: on a one-note score at index 0 (which is also the last
index), the unmapped key `"z"`, `nextNote` and `prevNote` are all no-ops. -/
theorem noop_transitions_witness :
    handleKeyPress "z" exampleLastState = (exampleLastState, none) ∧
      nextNote exampleLastState = exampleLastState ∧
      prevNote exampleLastState = exampleLastState :=
  ⟨(noop_transitions exampleLastState "z").1 (by decide),
   (noop_transitions exampleLastState "z").2.1 (by decide),
   (noop_transitions exampleLastState "z").2.2 (by decide)⟩

/-- C2 (code bug): once a match has been detected and the advance is
pending, the pending advance fires with stale state. The 1500 ms advance
timeout (`App.jsx` lines 60-69) is never cleared and never re-reads
`pressedButtons`: in the trace leading to `supersededState` the learner
completed the match for note `C#4` (check confirmed, advance `⟨0, 2⟩`
scheduled) and then pressed a further key, growing the pressed set to a
non-matching superset that the later check marked incorrect — yet firing
the still-pending advance increments the index from 0 to 1 anyway, with no
re-evaluation and no cancellation. -/
theorem pending_advance_fires_despite_stale_state :
    (handleKeyPress "a" exampleState).2 = some ⟨noteCs4, 0, 2⟩ ∧
      (fireCheck ⟨noteCs4, 0, 2⟩ (handleKeyPress "a" exampleState).1).2 =
        some ⟨0, 2⟩ ∧
      ¬ isCorrectCombination noteCs4.valveCombination supersededState.pressedButtons ∧
      supersededState.isCorrect = some false ∧
      supersededState.currentNoteIndex = 0 ∧
      (fireAdvance ⟨0, 2⟩ supersededState).currentNoteIndex = 1 := by
  refine ⟨rfl, rfl, by decide, rfl, rfl, rfl⟩

/-- C1: a key-down that completes the required combination adds the valve
and schedules the debounce check; the check confirms the match, sets
correctness to correct with feedback, and schedules the advance; firing the
advance on a non-last index increments the index by 1 with pressed set,
feedback and correctness reset, while on the last index it yields the
terminal complete state (correctness correct, completion message) with the
index unchanged. -/
theorem keyDown_match_correct_then_advance :
    ∀ (st : SessionState) (note : AnnotatedNote) (key : String) (b : Nat),
      currentNote st = some note →
      classifyKey st.buttonMappings (toLowerKey key) = some b →
      isCorrectCombination note.valveCombination (insert b st.pressedButtons) →
      handleKeyPress key st =
        ({ st with pressedButtons := insert b st.pressedButtons },
         some ⟨note, st.currentNoteIndex, st.notes.length⟩) ∧
      fireCheck ⟨note, st.currentNoteIndex, st.notes.length⟩
          { st with pressedButtons := insert b st.pressedButtons } =
        ({ st with pressedButtons := insert b st.pressedButtons,
                   feedback := correctFeedback (insert b st.pressedButtons) note.name,
                   isCorrect := some true },
         some ⟨st.currentNoteIndex, st.notes.length⟩) ∧
      (st.currentNoteIndex < st.notes.length - 1 →
        fireAdvance ⟨st.currentNoteIndex, st.notes.length⟩
            { st with pressedButtons := insert b st.pressedButtons,
                      feedback := correctFeedback (insert b st.pressedButtons) note.name,
                      isCorrect := some true } =
          { st with currentNoteIndex := st.currentNoteIndex + 1,
                    pressedButtons := ∅, feedback := "", isCorrect := none }) ∧
      (st.currentNoteIndex = st.notes.length - 1 →
        fireAdvance ⟨st.currentNoteIndex, st.notes.length⟩
            { st with pressedButtons := insert b st.pressedButtons,
                      feedback := correctFeedback (insert b st.pressedButtons) note.name,
                      isCorrect := some true } =
          { st with pressedButtons := insert b st.pressedButtons,
                    feedback := completionFeedback, isCorrect := some true }) := by
  intro st note key b hcur hclass hmatch
  refine ⟨handleKeyPress_mapped key st note b hcur hclass, ?_, ?_, ?_⟩
  · exact fireCheck_correct ⟨note, st.currentNoteIndex, st.notes.length⟩
      { st with pressedButtons := insert b st.pressedButtons } hmatch
  · intro h
    rw [fireAdvance_mid ⟨st.currentNoteIndex, st.notes.length⟩ _
      (show st.currentNoteIndex < st.notes.length - 1 from h)]
  · intro h
    rw [fireAdvance_last ⟨st.currentNoteIndex, st.notes.length⟩ _
      (show ¬ st.currentNoteIndex < st.notes.length - 1 by omega)]

/-- C1 witness: on a two-note score at note `C#4`, key `"a"` completes the
match and the advance moves to index 1 with everything reset; on a one-note
score at note `D#4`, key `"s"` completes the match and the advance yields
the terminal complete state. -/
theorem keyDown_match_correct_then_advance_witness :
    (fireAdvance ⟨exampleState.currentNoteIndex, exampleState.notes.length⟩
        { exampleState with
            pressedButtons := insert 1 exampleState.pressedButtons,
            feedback := correctFeedback (insert 1 exampleState.pressedButtons) noteCs4.name,
            isCorrect := some true } =
      { exampleState with
          currentNoteIndex := exampleState.currentNoteIndex + 1,
          pressedButtons := ∅, feedback := "", isCorrect := none }) ∧
    (fireAdvance ⟨exampleLastState.currentNoteIndex, exampleLastState.notes.length⟩
        { exampleLastState with
            pressedButtons := insert 2 exampleLastState.pressedButtons,
            feedback := correctFeedback (insert 2 exampleLastState.pressedButtons) noteDs4.name,
            isCorrect := some true } =
      { exampleLastState with
          pressedButtons := insert 2 exampleLastState.pressedButtons,
          feedback := completionFeedback, isCorrect := some true }) :=
  ⟨(keyDown_match_correct_then_advance exampleState noteCs4 "a" 1
      (by decide) (by decide) (by decide)).2.2.1 (by decide),
   (keyDown_match_correct_then_advance exampleLastState noteDs4 "s" 2
      (by decide) (by decide) (by decide)).2.2.2 (by decide)⟩

/-- C3: a key-down that leaves the pressed set different from the required
combination while holding at least as many buttons as required makes the
debounce check mark the attempt incorrect with feedback, schedule no
advance, and leave the index unchanged. -/
theorem keyDown_wrong_full_guess_incorrect :
    ∀ (st : SessionState) (note : AnnotatedNote) (key : String) (b : Nat),
      currentNote st = some note →
      classifyKey st.buttonMappings (toLowerKey key) = some b →
      ¬ isCorrectCombination note.valveCombination (insert b st.pressedButtons) →
      note.valveCombination.length ≤ (insert b st.pressedButtons).card →
      handleKeyPress key st =
        ({ st with pressedButtons := insert b st.pressedButtons },
         some ⟨note, st.currentNoteIndex, st.notes.length⟩) ∧
      fireCheck ⟨note, st.currentNoteIndex, st.notes.length⟩
          { st with pressedButtons := insert b st.pressedButtons } =
        ({ st with pressedButtons := insert b st.pressedButtons,
                   feedback := incorrectFeedback (insert b st.pressedButtons) note.name,
                   isCorrect := some false },
         none) ∧
      (fireCheck ⟨note, st.currentNoteIndex, st.notes.length⟩
          { st with pressedButtons := insert b st.pressedButtons }).1.currentNoteIndex =
        st.currentNoteIndex := by
  intro st note key b hcur hclass hnomatch hsize
  refine ⟨handleKeyPress_mapped key st note b hcur hclass, ?_, ?_⟩
  · exact fireCheck_incorrect ⟨note, st.currentNoteIndex, st.notes.length⟩
      { st with pressedButtons := insert b st.pressedButtons } hnomatch hsize
  · exact (fireCheck_fields _ _).1

/-- C3 witness: the spec's scenario — the note requires valve 2 only, the
learner presses `"a"` (valve 1): one button held, one required, sets differ,
so the check marks it incorrect and the index stays 0. -/
theorem keyDown_wrong_full_guess_incorrect_witness :
    ¬ isCorrectCombination noteDs4.valveCombination
        (insert 1 exampleLastState.pressedButtons) ∧
      (fireCheck ⟨noteDs4, 0, 1⟩
          { exampleLastState with
              pressedButtons := insert 1 exampleLastState.pressedButtons }).1.currentNoteIndex =
        exampleLastState.currentNoteIndex :=
  ⟨by decide,
   (keyDown_wrong_full_guess_incorrect exampleLastState noteDs4 "a" 1
      (by decide) (by decide) (by decide) (by decide)).2.2⟩

/-- C10: no transition removes an individual valve id from the pressed set:
every event that leaves `currentNoteIndex` unchanged can only grow
`pressedButtons` (only key-down events add to it; there is no key-up event
in the alphabet, matching the single `keydown` listener of the source), and
every event that changes `currentNoteIndex` resets `pressedButtons` to
empty. -/
theorem pressed_only_grows_or_resets :
    ∀ (e : Event) (st : SessionState),
      ((step e st).currentNoteIndex = st.currentNoteIndex →
        st.pressedButtons ⊆ (step e st).pressedButtons) ∧
      ((step e st).currentNoteIndex ≠ st.currentNoteIndex →
        (step e st).pressedButtons = ∅) := by
  intro e st
  cases e with
  | keyDown key =>
    rcases handleKeyPress_fst key st with h | ⟨b, h⟩
    · exact ⟨fun _ => by rw [step, h], fun hne => absurd (by rw [step, h]) hne⟩
    · refine ⟨fun _ => ?_, fun hne => absurd (by rw [step, h]) hne⟩
      rw [step, h]
      exact Finset.subset_insert _ _
  | next =>
    simp only [step, nextNote]
    split_ifs with h
    · exact ⟨fun he => absurd he (Nat.succ_ne_self _), fun _ => rfl⟩
    · exact ⟨fun _ => Finset.Subset.refl _, fun hne => absurd rfl hne⟩
  | prev =>
    simp only [step, prevNote]
    split_ifs with h
    · exact ⟨fun he =>
        absurd he (show st.currentNoteIndex - 1 ≠ st.currentNoteIndex by omega),
        fun _ => rfl⟩
    · exact ⟨fun _ => Finset.Subset.refl _, fun hne => absurd rfl hne⟩
  | parsed notes =>
    simp only [step, handleNotesParsed]
    split_ifs with h
    · exact ⟨fun he => absurd he.symm h, fun _ => rfl⟩
    · exact ⟨fun _ => Finset.Subset.refl _, fun hne => absurd (not_not.mp h).symm hne⟩
  | upload =>
    simp only [step, handleFileUpload]
    split_ifs with h
    · exact ⟨fun he => absurd he.symm h, fun _ => rfl⟩
    · exact ⟨fun _ => Finset.Subset.refl _, fun hne => absurd rfl hne⟩
  | remap n k =>
    exact ⟨fun _ => Finset.Subset.refl _, fun hne => absurd rfl hne⟩
  | check pc =>
    refine ⟨fun _ => ?_, fun hne => absurd (fireCheck_fields pc st).1 hne⟩
    rw [show (step (.check pc) st).pressedButtons = st.pressedButtons from
      (fireCheck_fields pc st).2]
  | advance pa =>
    simp only [step, fireAdvance]
    split_ifs with h
    · exact ⟨fun he => absurd he (Nat.succ_ne_self _), fun _ => rfl⟩
    · exact ⟨fun _ => Finset.Subset.refl _, fun hne => absurd rfl hne⟩

/-- C10 witness: a key-down grows the pressed set in place (index
unchanged), and an advance that changes the index resets it to empty. -/
theorem pressed_only_grows_or_resets_witness :
    exampleState.pressedButtons ⊆ (step (.keyDown "a") exampleState).pressedButtons ∧
      (step (.advance ⟨0, 2⟩) exampleState).pressedButtons = ∅ :=
  ⟨(pressed_only_grows_or_resets (.keyDown "a") exampleState).1 (by decide),
   (pressed_only_grows_or_resets (.advance ⟨0, 2⟩) exampleState).2 (by decide)⟩

/-- C4 counterexample: Load does not always clear the pressed set. From the
initial state, load a one-note score (note `F4`, requires valves 1 and 2),
press `"a"` (valve 1 — a partial guess, so the session stays at index 0),
then load the same score again: the load leaves `currentNoteIndex` at 0, so
the index-change effect never runs and `pressedButtons` is still `\x7b1\x7d`,
not empty as the claim requires. -/
theorem load_retains_pressed_counterexample :
    (step (.parsed [⟨"F4"⟩])
        (step (.keyDown "a")
          (step (.parsed [⟨"F4"⟩]) initialState))).pressedButtons = {1} ∧
      ({1} : Finset Nat) ≠ (∅ : Finset Nat) := by
  constructor
  · rfl
  · decide

/-- C4 (amended): Load always sets `currentIndex` to 0 and replaces the
notes; it clears `pressedButtons` exactly when the previous index was
nonzero (the clearing is done by the effect keyed on the index, which runs
only when the index value changes), and retains it when the previous index
was already 0; loading the empty sequence yields a snapshot with no current
note and `canGoPrev`/`canGoNext` both false. -/
theorem handleNotesParsed_spec :
    ∀ (parsedNotes : List ParsedNote) (st : SessionState),
      (handleNotesParsed parsedNotes st).currentNoteIndex = 0 ∧
      (handleNotesParsed parsedNotes st).notes = applyValveCombinations parsedNotes ∧
      (st.currentNoteIndex ≠ 0 →
        (handleNotesParsed parsedNotes st).pressedButtons = ∅) ∧
      (st.currentNoteIndex = 0 →
        (handleNotesParsed parsedNotes st).pressedButtons = st.pressedButtons) ∧
      (parsedNotes = [] →
        currentNote (handleNotesParsed parsedNotes st) = none ∧
        canGoPrev (handleNotesParsed parsedNotes st) = false ∧
        canGoNext (handleNotesParsed parsedNotes st) = false) := by
  intro parsedNotes st
  simp only [handleNotesParsed]
  split_ifs with h
  · refine ⟨rfl, rfl, fun _ => rfl, fun h0 => absurd h0 h, fun hempty => ?_⟩
    subst hempty
    exact ⟨rfl, rfl, rfl⟩
  · refine ⟨rfl, rfl, fun hne => absurd hne h, fun _ => rfl, fun hempty => ?_⟩
    subst hempty
    exact ⟨rfl, rfl, rfl⟩

/-- C4 witness: loading while at index 1 clears the pressed set, and loading
the empty score yields no current note and disabled navigation. -/
theorem handleNotesParsed_spec_witness :
    (handleNotesParsed [] idx1State).pressedButtons = ∅ ∧
      currentNote (handleNotesParsed [] idx1State) = none ∧
      canGoNext (handleNotesParsed [] idx1State) = false :=
  ⟨(handleNotesParsed_spec [] idx1State).2.2.1 (by decide),
   ((handleNotesParsed_spec [] idx1State).2.2.2.2 rfl).1,
   ((handleNotesParsed_spec [] idx1State).2.2.2.2 rfl).2.2⟩

/-- C5 (code bug): the matcher does treat the open-valve note's empty
combination as matched by the empty pressed set, but the engine evaluates
the combination only from inside a key-down of a mapped key — with no keys
held no check ever runs, so the session never auto-advances past an
open-valve note, and pressing any mapped key makes the pressed set nonempty
and is judged incorrect (`size(pressedSet) = 1 ≥ 0 = size(required)` with
differing sets). Evaluated at note `C4` (required combination empty). -/
theorem openNote_never_advances :
    noteToValveCombination "C4" = [] ∧
      isCorrectCombination (noteToValveCombination "C4") (∅ : Finset Nat) ∧
      (handleKeyPress "a" openNoteState).2 = some ⟨noteC4, 0, 2⟩ ∧
      (fireCheck ⟨noteC4, 0, 2⟩ (handleKeyPress "a" openNoteState).1).1.isCorrect =
        some false ∧
      (fireCheck ⟨noteC4, 0, 2⟩ (handleKeyPress "a" openNoteState).1).2 = none := by
  refine ⟨rfl, by decide, rfl, ?_, ?_⟩ <;> rfl

end TrumpetHelper
